import Mathlib

/-!
Verification of the item-access and routing layer of `collected-node`
(`src/api/dynamo/items.js`: the dynamo item repository followed by the hapi
route table).

Strings are modelled as `List Char` (`Str`), so that the key-formatting
functions (template interpolation, `R.split('-')`, `R.last`) can be embedded
structurally.  DynamoDB items are attribute maps (`Record`), the items table
is a list of records (`Store`), and the platform JSON codec is modelled by a
dedicated `Attr.serialized` constructor: `JSON.stringify v` is the string
`Attr.serialized v`, and `JSON.parse` of that string returns `v`.
-/

/-- JS strings, modelled as lists of characters. -/
abbrev Str := List Char

namespace Collected

/-- The `types` map of `src/api/dynamo/items.js` (short name to stored type
string); note `screen ↦ story-screen` etc. contain the `-` separator. -/
def itemTypes : List (Str × Str) :=
  [ ("collection".data, "collection".data)
  , ("record".data, "record".data)
  , ("picture".data, "picture".data)
  , ("story".data, "story".data)
  , ("screen".data, "story-screen".data)
  , ("message".data, "story-message".data)
  , ("promotion".data, "story-promotion".data)
  , ("component".data, "component".data) ]

/-- The values of the `types` map: every stored item-type string. -/
def itemTypeValues : List Str := itemTypes.map Prod.snd

/-- Source `uniqueIDForTypeAndID = (type, id) => ${type}-${id}`: composite key made
by joining type and id with the `-` separator. -/
def uniqueIDForTypeAndID (type id : Str) : Str := type ++ '-' :: id

/-- JS `String.prototype.split('-')`: splits a string on every occurrence of
`-`, as used by `R.split('-')` inside `formatID`. -/
def splitDash : Str → List Str
  | [] => [[]]
  | c :: cs =>
    if c = '-' then [] :: splitDash cs
    else
      match splitDash cs with
      | [] => [[c]]
      | h :: t => (c :: h) :: t

/-- Ramda `R.last` on a list of strings; `splitDash` never returns `[]`, so the
default is unreachable. -/
def lastD : List Str → Str
  | [] => []
  | [x] => x
  | _ :: x :: xs => lastD (x :: xs)

/-- Source `formatID = R.pipe(R.split('-'), R.last)`: strips everything up to the
last `-` separator of a composite key. -/
def formatID (s : Str) : Str := lastD (splitDash s)

theorem splitDash_ne_nil (l : Str) : splitDash l ≠ [] := by
  induction l with
  | nil => simp [splitDash]
  | cons c cs ih =>
    simp only [splitDash]
    split
    · simp
    · cases h : splitDash cs <;> simp

theorem splitDash_no_dash (l : Str) (h : ∀ c ∈ l, c ≠ '-') :
    splitDash l = [l] := by
  induction l with
  | nil => simp [splitDash]
  | cons c cs ih =>
    have hc : c ≠ '-' := h c (by simp)
    have hrest := ih (fun x hx => h x (by simp [hx]))
    simp [splitDash, hc, hrest]

theorem two_le_splitDash_length (xs l : Str) :
    2 ≤ (splitDash (xs ++ '-' :: l)).length := by
  induction xs with
  | nil =>
    show 2 ≤ (splitDash ('-' :: l)).length
    rw [splitDash, if_pos rfl]
    have h1 : 1 ≤ (splitDash l).length := by
      cases h : splitDash l with
      | nil => exact absurd h (splitDash_ne_nil l)
      | cons a t => simp
    simpa using h1
  | cons c cs ih =>
    show 2 ≤ (splitDash (c :: (cs ++ '-' :: l))).length
    rw [splitDash]
    by_cases hc : c = '-'
    · rw [if_pos hc]
      have h1 : 1 ≤ (splitDash (cs ++ '-' :: l)).length := Nat.le_of_succ_le ih
      simpa using h1
    · rw [if_neg hc]
      cases h : splitDash (cs ++ '-' :: l) with
      | nil => exact absurd h (splitDash_ne_nil _)
      | cons a t =>
        rw [h] at ih
        simpa using ih

theorem lastD_cons_cons (a b : Str) (t : List Str) :
    lastD (a :: b :: t) = lastD (b :: t) := by
  simp [lastD]

theorem lastD_splitDash_append (xs l : Str) :
    lastD (splitDash (xs ++ '-' :: l)) = lastD (splitDash l) := by
  induction xs with
  | nil =>
    show lastD (splitDash ('-' :: l)) = lastD (splitDash l)
    rw [splitDash, if_pos rfl]
    cases h : splitDash l with
    | nil => exact absurd h (splitDash_ne_nil l)
    | cons a t => rw [lastD_cons_cons]
  | cons c cs ih =>
    show lastD (splitDash (c :: (cs ++ '-' :: l))) = lastD (splitDash l)
    rw [splitDash]
    by_cases hc : c = '-'
    · rw [if_pos hc]
      cases h : splitDash (cs ++ '-' :: l) with
      | nil => exact absurd h (splitDash_ne_nil _)
      | cons a t =>
        rw [lastD_cons_cons, ← h, ih]
    · rw [if_neg hc]
      cases h : splitDash (cs ++ '-' :: l) with
      | nil => exact absurd h (splitDash_ne_nil _)
      | cons a t =>
        have hlen := two_le_splitDash_length cs l
        rw [h] at hlen ih
        cases t with
        | nil => simp at hlen
        | cons b t' =>
          rw [lastD_cons_cons, ← ih, lastD_cons_cons]

/-- For any type string and any id free of the separator,
`formatID (uniqueIDForTypeAndID type id) = id`. -/
theorem formatID_uniqueID (type id : Str) (h : ∀ c ∈ id, c ≠ '-') :
    formatID (uniqueIDForTypeAndID type id) = id := by
  unfold formatID uniqueIDForTypeAndID
  rw [lastD_splitDash_append, splitDash_no_dash id h]
  rfl

/-- JS number-to-string for the allocator's counters: decimal digits of a
natural number, as produced by template interpolation of the counter into
the composite key. -/
def natToDecimal (n : Nat) : Str :=
  if h : n < 10 then [Char.ofNat (48 + n)]
  else natToDecimal (n / 10) ++ [Char.ofNat (48 + n % 10)]
  decreasing_by exact Nat.div_lt_self (by omega) (by omega)

theorem digitChar_ne_dash (d : Nat) (hd : d < 10) : Char.ofNat (48 + d) ≠ '-' := by
  interval_cases d <;> decide

/-- Decimal renderings of allocator counters never contain the `-` key
separator. -/
theorem natToDecimal_no_dash (n : Nat) : ∀ c ∈ natToDecimal n, c ≠ '-' := by
  induction n using Nat.strong_induction_on with
  | _ n ih =>
    intro c hc
    rw [natToDecimal] at hc
    by_cases h : n < 10
    · rw [dif_pos h] at hc
      simp only [List.mem_singleton] at hc
      subst hc
      exact digitChar_ne_dash n h
    · rw [dif_neg h] at hc
      rcases List.mem_append.mp hc with h1 | h2
      · exact ih (n / 10) (Nat.div_lt_self (by omega) (by omega)) c h1
      · simp only [List.mem_singleton] at h2
        subst h2
        exact digitChar_ne_dash (n % 10) (Nat.mod_lt n (by omega))

/-!
## Attribute values, records, and the store

DynamoDB items are maps from attribute names to values; the JS layer passes
them around as plain objects.  `Attr` models a JS/Dynamo value.  The platform
JSON codec is modelled by the `serialized` constructor: `JSON.stringify v`
is the (injective) string `Attr.serialized v`, and `JSON.parse` of that
string returns `v`.  Both `str` and `serialized` are JS strings, which is
what `R.is(String, ·)` observes.
-/

inductive Attr where
  | nullv : Attr
  | bool (b : Bool) : Attr
  | num (n : Int) : Attr
  | str (s : Str) : Attr
  | serialized (v : Attr) : Attr
  | arr (l : List Attr) : Attr
  | obj (l : List (Str × Attr)) : Attr

/-- Ramda `R.is(String, ·)`: both plain strings and `JSON.stringify` output are JS
strings. -/
def Attr.isString : Attr → Bool
  | .str _ => true
  | .serialized _ => true
  | _ => false

/-- JS truthiness, as used by the `item.contentJSON && {...}` guard in
`formatItem`.  A `stringify` result is a non-empty string, hence truthy. -/
def Attr.truthy : Attr → Bool
  | .nullv => false
  | .bool b => b
  | .num n => decide (n ≠ 0)
  | .str s => decide (s ≠ [])
  | .serialized _ => true
  | .arr _ => true
  | .obj _ => true

/-- Model of the platform `JSON.stringify`. -/
def JSONstringify (v : Attr) : Attr := .serialized v

/-- Model of the platform `JSON.parse` on the codec model: parsing the
string `JSON.stringify v` (i.e. `Attr.serialized v`) yields `v`.  The real
`JSON.parse` applied to an arbitrary other string either parses that text or
throws; this layer only ever persists `stringify` output at `contentJSON`
(`createItem` always stringifies), so the model maps the remaining cases to
`Attr.nullv` and no theorem below depends on them. -/
def JSONparse : Attr → Attr
  | .serialized v => v
  | _ => .nullv

/-- A stored item / JS object: an ordered association list from attribute
names to values. -/
abbrev Record := List (Str × Attr)

/-- Attribute names used by this layer. -/
def fOwnerID : Str := "ownerID".data

def fId : Str := "id".data

def fType : Str := "type".data

def fName : Str := "name".data

def fTags : Str := "tags".data

def fContentJSON : Str := "contentJSON".data

/-- Property read `record.f`. -/
def getField (r : Record) (f : Str) : Option Attr :=
  (r.find? (fun p => p.1 == f)).map Prod.snd

/-- Property write `record.f = v` (keeps the position of an existing key,
appends a fresh one, as JS objects do). -/
def setField (r : Record) (f : Str) (v : Attr) : Record :=
  if r.any (fun p => p.1 == f) then
    r.map (fun p => if p.1 == f then (f, v) else p)
  else r ++ [(f, v)]

/-- Apply a list of field writes in order (the SET clauses of an update
expression, or `Object.assign`). -/
def setFields (r : Record) (sets : Record) : Record :=
  sets.foldl (fun acc p => setField acc p.1 p.2) r

/-- The items table: a list of stored records. -/
abbrev Store := List Record

/-- Whether a stored record carries the given composite primary key
(`ownerID` partition key, `id` sort key); Dynamo keys are string attributes. -/
def matchesKey (r : Record) (ownerID id : Str) : Bool :=
  (match getField r fOwnerID with
   | some (.str s) => s == ownerID
   | _ => false) &&
  (match getField r fId with
   | some (.str s) => s == id
   | _ => false)

/-- The store's `GetItem`: point lookup by composite key. -/
def getItemStore (store : Store) (ownerID id : Str) : Option Record :=
  store.find? (fun r => matchesKey r ownerID id)

/-- The store's `PutItem`: replaces any record with the same key by the new
item. -/
def putItemStore (store : Store) (ownerID id : Str) (item : Record) : Store :=
  store.filter (fun r => !(matchesKey r ownerID id)) ++ [item]

/-- The store's `UpdateItem` with only SET clauses and `ReturnValues:
ALL_NEW`: an upsert.  On a present key the named fields are overwritten; on
an absent key a record holding only the key fields and the SET fields is
created.  Returns the full new record together with the new store. -/
def updateItemStore (store : Store) (ownerID id : Str) (sets : Record) :
    Record × Store :=
  match getItemStore store ownerID id with
  | some r =>
    let r' := setFields r sets
    (r', store.map (fun x => if matchesKey x ownerID id then r' else x))
  | none =>
    let r' := setFields [(fOwnerID, .str ownerID), (fId, .str id)] sets
    (r', store ++ [r'])

/-!
## The item repository (`src/api/dynamo/items.js`)

Each operation is embedded as a function on the explicit store state and
also reports which store primitives it invokes (`StoreOp`), so that the
route-layer theorems can speak about "a store call occurring".
-/

/-- An owner as resolved from the path parameters. -/
structure Owner where
  type : Str
  id : Str
  deriving DecidableEq, Repr

/-- Source `uniqueIDForOwner = (owner) => uniqueIDForTypeAndID(owner.type, owner.id)`. -/
def uniqueIDForOwner (owner : Owner) : Str :=
  uniqueIDForTypeAndID owner.type owner.id

/-- The store primitives the repository can invoke (`query`, `getItem`,
`putItem`, `updateItem`, plus the delete referenced by the route layer). -/
inductive StoreOp where
  | queryOp : StoreOp
  | getItemOp : StoreOp
  | putItemOp : StoreOp
  | updateItemOp : StoreOp
  | deleteOp : StoreOp
  deriving DecidableEq, Repr

/-- Database state: the items table plus the per-type ID counters (held in a
separate store table by `ids.js`). -/
structure DB where
  items : Store
  counters : List (Str × Nat)

/-- Modelled from the spec: `incrementIDForType` lives in
`src/api/dynamo/ids.js`, which is not among the reviewed sources.  Spec §4.1:
"atomically increments and returns the new counter value for the given item
type"; §3: the Counter "holds the last-issued numeric ID for that type".  A
missing counter starts at 0, so the first issued ID is 1 (spec §8: the first
allocated ID is `'1'`).  The atomic increment is one store update. -/
def incrementIDForType (type : Str) (counters : List (Str × Nat)) :
    Nat × List (Str × Nat) :=
  let old := ((counters.find? (fun p => p.1 == type)).map Prod.snd).getD 0
  let newv := old + 1
  (newv,
   if counters.any (fun p => p.1 == type) then
     counters.map (fun p => if p.1 == type then (type, newv) else p)
   else counters ++ [(type, newv)])

/-- Source `formatItem`: copy the record, replace `id` by `formatID(id)`, and when
`contentJSON` is truthy replace it by its parse when it is a string (leaving
a non-string `contentJSON` untouched).  The source reads `item.id` as a
string; a record without a string `id` is outside its domain and the model
formats the empty string there. -/
def formatItem (item : Record) : Record :=
  let s := match getField item fId with
    | some (.str s) => s
    | _ => []
  let item1 := setField item fId (.str (formatID s))
  match getField item fContentJSON with
  | some c =>
    if c.truthy then
      setField item1 fContentJSON (if c.isString then JSONparse c else c)
    else item1
  | none => item1

/-- Source `readAllItemsForOwner`: query the partition key `ownerID`, then format
every returned item. -/
def readAllItemsForOwner (owner : Owner) (store : Store) :
    List Record × List StoreOp :=
  ((store.filter (fun r =>
      match getField r fOwnerID with
      | some (.str s) => s == uniqueIDForOwner owner
      | _ => false)).map formatItem,
   [StoreOp.queryOp])

/-- Source `readAllItemsForType`: query the `Type` index (`ownerID = :ownerID and
#type = :type`), then format every returned item. -/
def readAllItemsForType (owner : Owner) (type : Str) (store : Store) :
    List Record × List StoreOp :=
  ((store.filter (fun r =>
      (match getField r fOwnerID with
       | some (.str s) => s == uniqueIDForOwner owner
       | _ => false) &&
      (match getField r fType with
       | some (.str s) => s == type
       | _ => false))).map formatItem,
   [StoreOp.queryOp])

/-- Source `readItem`: point lookup by composite key; `R.unless(R.isNil,
formatItem)` formats the item when present and passes the absence through. -/
def readItem (owner : Owner) (type id : Str) (store : Store) :
    Option Record × List StoreOp :=
  ((getItemStore store (uniqueIDForOwner owner)
      (uniqueIDForTypeAndID type id)).map formatItem,
   [StoreOp.getItemOp])

/-- The `{type, id}` value `createItem` resolves with. -/
structure CreatedItem where
  type : Str
  id : Nat
  deriving DecidableEq, Repr

/-- The `Item` object `createItem` sends to `putItem`: composite keys from
template interpolation of the allocated counter `c`, `tags` defaulting to
`[]`, `name` defaulting to `'Untitled'`, and `contentJSON` stored as
`JSON.stringify(contentJSON)`. -/
def createdRecord (owner : Owner) (type : Str) (tags name : Option Attr)
    (contentJSON : Attr) (c : Nat) : Record :=
  [ (fOwnerID, .str (uniqueIDForOwner owner))
  , (fId, .str (uniqueIDForTypeAndID type (natToDecimal c)))
  , (fType, .str type)
  , (fTags, tags.getD (.arr []))
  , (fName, name.getD (.str "Untitled".data))
  , (fContentJSON, JSONstringify contentJSON) ]

/-- Source `createItem`: allocate a fresh counter for the type, then `putItem` the
new record (`createdRecord`).  Resolves with `{type, id}` where `id` is the
allocator's counter. -/
def createItem (owner : Owner) (type : Str) (tags name : Option Attr)
    (contentJSON : Attr) (db : DB) : CreatedItem × DB × List StoreOp :=
  let (counter, counters') := incrementIDForType type db.counters
  (⟨type, counter⟩,
   ⟨putItemStore db.items (uniqueIDForOwner owner)
      (uniqueIDForTypeAndID type (natToDecimal counter))
      (createdRecord owner type tags name contentJSON counter), counters'⟩,
   [StoreOp.updateItemOp, StoreOp.putItemOp])

/-- Source `updateNameForItem`: `UpdateExpression: 'set #name = :newName'` with
`ReturnValues: ALL_NEW`, resolving with the raw `Attributes`. -/
def updateNameForItem (owner : Owner) (type id : Str) (newName : Attr)
    (store : Store) : Record × Store × List StoreOp :=
  let (attrs, store') := updateItemStore store (uniqueIDForOwner owner)
      (uniqueIDForTypeAndID type id) [(fName, newName)]
  (attrs, store', [StoreOp.updateItemOp])

/-- Source `updateTagsForItem`: `UpdateExpression: 'set #tags = :newTags'` with
`ReturnValues: ALL_NEW`, resolving with the raw `Attributes`. -/
def updateTagsForItem (owner : Owner) (type id : Str) (newTags : Attr)
    (store : Store) : Record × Store × List StoreOp :=
  let (attrs, store') := updateItemStore store (uniqueIDForOwner owner)
      (uniqueIDForTypeAndID type id) [(fTags, newTags)]
  (attrs, store', [StoreOp.updateItemOp])

/-- Source `updateItemWithChanges`: `dynamodb-update-expression` diffs `{}` against
`changes`, producing one SET clause per present field of the changeset; the
update runs with `ReturnValues: ALL_NEW` and resolves with the raw
`Attributes`. -/
def updateItemWithChanges (owner : Owner) (type id : Str) (changes : Record)
    (store : Store) : Record × Store × List StoreOp :=
  let (attrs, store') := updateItemStore store (uniqueIDForOwner owner)
      (uniqueIDForTypeAndID type id) changes
  (attrs, store', [StoreOp.updateItemOp])

/-- Modelled from the spec: `deleteItem` is imported by the route layer but
is not defined in the reviewed source (`src/api/dynamo/items.js` does not
export it).  Spec §6: "DELETE … Delete item"; modelled as removing the
record with the composite key. -/
def deleteItem (owner : Owner) (type id : Str) (store : Store) :
    Store × List StoreOp :=
  (store.filter (fun r =>
     !(matchesKey r (uniqueIDForOwner owner) (uniqueIDForTypeAndID type id))),
   [StoreOp.deleteOp])

/-- Modelled from the spec: `countAllItemsForOwner` is imported by the route
layer but is not defined in the reviewed source.  Spec §6: "Count of items
for owner"; modelled as the size of the owner's partition, via one query. -/
def countAllItemsForOwner (owner : Owner) (store : Store) :
    Nat × List StoreOp :=
  ((store.filter (fun r =>
      match getField r fOwnerID with
      | some (.str s) => s == uniqueIDForOwner owner
      | _ => false)).length,
   [StoreOp.queryOp])

/-- Modelled from the spec: `countAllItemsForType` is imported by the route
layer but is not defined in the reviewed source.  Spec §6: "Count of items
of a type"; modelled as the size of the type's slice of the partition, via
one query. -/
def countAllItemsForType (owner : Owner) (type : Str) (store : Store) :
    Nat × List StoreOp :=
  ((store.filter (fun r =>
      (match getField r fOwnerID with
       | some (.str s) => s == uniqueIDForOwner owner
       | _ => false) &&
      (match getField r fType with
       | some (.str s) => s == type
       | _ => false))).length,
   [StoreOp.queryOp])

/-!
## The route layer (second half of `src/api/dynamo/items.js`)

Each declared route carries an ordered chain of precondition steps and a
handler.  A precondition that replies a Boom error short-circuits the chain
and becomes the response; otherwise its result is assigned into the `pre`
context for later steps and the handler.
-/

/-- An HTTP-ish response produced by a handler or a short-circuiting
precondition. -/
inductive Response where
  | ok (body : Attr) : Response
  | created (body : Attr) (location : Str) : Response
  | unauthorized (msg : Str) : Response
  | notFound (msg : Str) : Response

/-- Whether a response is the 403-class `Boom.unauthorized`. -/
def Response.isUnauthorized : Response → Bool
  | .unauthorized _ => true
  | _ => false

/-- Whether a response is the 404 `Boom.notFound`. -/
def Response.isNotFound : Response → Bool
  | .notFound _ => true
  | _ => false

/-- Source `handlers.authorizedForOwner`: for an `organization` owner it replies
`true` when `id === '1'` and `Boom.unauthorized` otherwise (`some` =
short-circuiting error reply, `none` = the chain continues).  For a
non-organization owner the source replies nothing at all; the model
continues there, and no theorem below relies on that case. -/
def authorizedForOwner (owner : Owner) : Option Response :=
  if owner.type == "organization".data && !(owner.id == "1".data) then
    some (.unauthorized ("Not allowed to access organization ".data ++ owner.id))
  else none

/-- The precondition methods that appear in the route table's `pre` chains,
plus `authorizedForOwner`, which the source defines among the handlers. -/
inductive PreStep where
  | preOwner : PreStep
  | preItemType : PreStep
  | preCountOwner : PreStep
  | preCountType : PreStep
  | preAuthorizedForOwner : PreStep
  deriving DecidableEq, Repr

/-- A request after path parsing and payload validation: the path
parameters (`ownerType`, `ownerID`, and where declared `itemType` and the
item `id`) and the validated payload object. -/
structure Request where
  ownerType : Str
  ownerID : Str
  itemType : Str
  itemID : Str
  payload : Record

/-- The accumulated `pre` assignments (`owner`, `type`, `count`). -/
structure PreCtx where
  owner : Option Owner
  type : Option Str
  count : Option Nat

/-- Run one precondition step: either extend the `pre` context or
short-circuit with an error response; count steps invoke the store. -/
def runPre (s : PreStep) (req : Request) (store : Store) (ctx : PreCtx) :
    (PreCtx ⊕ Response) × List StoreOp :=
  match s with
  | .preOwner =>
    (Sum.inl { ctx with owner := some ⟨req.ownerType, req.ownerID⟩ }, [])
  | .preItemType =>
    (Sum.inl { ctx with type := some req.itemType }, [])
  | .preCountOwner =>
    let (n, ops) := countAllItemsForOwner (ctx.owner.getD ⟨[], []⟩) store
    (Sum.inl { ctx with count := some n }, ops)
  | .preCountType =>
    let (n, ops) :=
      countAllItemsForType (ctx.owner.getD ⟨[], []⟩) (ctx.type.getD []) store
    (Sum.inl { ctx with count := some n }, ops)
  | .preAuthorizedForOwner =>
    match authorizedForOwner (ctx.owner.getD ⟨[], []⟩) with
    | some resp => (Sum.inr resp, [])
    | none => (Sum.inl ctx, [])

/-- Run a `pre` chain in order, short-circuiting on the first error reply. -/
def runPres (steps : List PreStep) (req : Request) (store : Store)
    (ctx : PreCtx) : (PreCtx ⊕ Response) × List StoreOp :=
  match steps with
  | [] => (Sum.inl ctx, [])
  | s :: rest =>
    match runPre s req store ctx with
    | (Sum.inl ctx', ops) =>
      let (res, ops') := runPres rest req store ctx'
      (res, ops ++ ops')
    | (Sum.inr resp, ops) => (Sum.inr resp, ops)

/-- The handlers the route table dispatches to. -/
inductive HandlerKind where
  | hOwner : HandlerKind
  | hItemsForOwner : HandlerKind
  | hCountReply : HandlerKind
  | hItemsForType : HandlerKind
  | hItem : HandlerKind
  | hCreate : HandlerKind
  | hPatch : HandlerKind
  | hDelete : HandlerKind
  deriving DecidableEq, Repr

/-- The `Boom.notFound` message of `handlers.item`. -/
def notFoundMessage (type id : Str) : Str :=
  "No item with type '".data ++ type ++ "' and id '".data ++ id ++
    "' found".data

/-- The `Location` header the POST handler sets. -/
def createdLocation (ownerType ownerID type : Str) (id : Nat) : Str :=
  "/@".data ++ ownerType ++ "/".data ++ ownerID ++ "/items/".data ++ type ++
    "/".data ++ natToDecimal id

/-- Run a route handler against the `pre` context and the database. -/
def runHandler (h : HandlerKind) (req : Request) (ctx : PreCtx) (db : DB) :
    Response × DB × List StoreOp :=
  match h with
  | .hOwner =>
    (.ok (.obj [(fType, .str req.ownerType), (fId, .str req.ownerID)]),
     db, [])
  | .hItemsForOwner =>
    let (items, ops) := readAllItemsForOwner (ctx.owner.getD ⟨[], []⟩) db.items
    (.ok (.arr (items.map Attr.obj)), db, ops)
  | .hCountReply =>
    (.ok (.obj [("count".data, .num (ctx.count.getD 0))]), db, [])
  | .hItemsForType =>
    let (items, ops) :=
      readAllItemsForType (ctx.owner.getD ⟨[], []⟩) (ctx.type.getD []) db.items
    (.ok (.arr (items.map Attr.obj)), db, ops)
  | .hItem =>
    let (res, ops) :=
      readItem (ctx.owner.getD ⟨[], []⟩) (ctx.type.getD []) req.itemID db.items
    match res with
    | some item => (.ok (.obj item), db, ops)
    | none =>
      (.notFound (notFoundMessage (ctx.type.getD []) req.itemID), db, ops)
  | .hCreate =>
    let (item, db', ops) := createItem (ctx.owner.getD ⟨[], []⟩)
        (ctx.type.getD []) (getField req.payload fTags)
        (getField req.payload fName)
        ((getField req.payload fContentJSON).getD .nullv) db
    (.created (.obj [(fType, .str item.type), (fId, .num item.id)])
       (createdLocation req.ownerType req.ownerID item.type item.id),
     db', ops)
  | .hPatch =>
    let (attrs, store', ops) := updateItemWithChanges (ctx.owner.getD ⟨[], []⟩)
        (ctx.type.getD []) req.itemID req.payload db.items
    (.ok (.obj attrs), ⟨store', db.counters⟩, ops)
  | .hDelete =>
    let (store', ops) :=
      deleteItem (ctx.owner.getD ⟨[], []⟩) (ctx.type.getD []) req.itemID
        db.items
    (.ok (.obj []), ⟨store', db.counters⟩, ops)

/-- A declared route: method, path, `pre` chain (flattened in declaration
order) and handler. -/
structure Route where
  method : Str
  path : Str
  pres : List PreStep
  handler : HandlerKind
  deriving DecidableEq

/-- Source `ownerPathPrefix`. -/
def ownerPathPrefix (rest : Str) : Str :=
  "/1/@{ownerType}/{ownerID}".data ++ rest

/-- Route `GET /1/@{ownerType}/{ownerID}`. -/
def routeOwner : Route :=
  ⟨"GET".data, ownerPathPrefix "".data, [], .hOwner⟩

/-- Route `GET …/items`. -/
def routeItemsForOwner : Route :=
  ⟨"GET".data, ownerPathPrefix "/items".data, [.preOwner], .hItemsForOwner⟩

/-- Route `GET …/items/:count`. -/
def routeItemsCount : Route :=
  ⟨"GET".data, ownerPathPrefix "/items/:count".data,
    [.preOwner, .preCountOwner], .hCountReply⟩

/-- Route `GET …/items/type:{itemType}`. -/
def routeItemsForType : Route :=
  ⟨"GET".data, ownerPathPrefix "/items/type:{itemType}".data,
    [.preOwner, .preItemType], .hItemsForType⟩

/-- Route `GET …/items/type:{itemType}:count`. -/
def routeItemsForTypeCount : Route :=
  ⟨"GET".data, ownerPathPrefix "/items/type:{itemType}:count".data,
    [.preOwner, .preItemType, .preCountType], .hCountReply⟩

/-- Route `GET …/items/type:{itemType}/{id}`. -/
def routeItem : Route :=
  ⟨"GET".data, ownerPathPrefix "/items/type:{itemType}/{id}".data,
    [.preOwner, .preItemType], .hItem⟩

/-- Route `POST …/items/type:{itemType}`. -/
def routeCreateItem : Route :=
  ⟨"POST".data, ownerPathPrefix "/items/type:{itemType}".data,
    [.preOwner, .preItemType], .hCreate⟩

/-- Route `PATCH …/items/type:{itemType}/{id}`. -/
def routePatchItem : Route :=
  ⟨"PATCH".data, ownerPathPrefix "/items/type:{itemType}/{id}".data,
    [.preOwner, .preItemType], .hPatch⟩

/-- Route `DELETE …/items/type:{itemType}/{id}`. -/
def routeDeleteItem : Route :=
  ⟨"DELETE".data, ownerPathPrefix "/items/type:{itemType}/{id}".data,
    [.preOwner, .preItemType], .hDelete⟩

/-- The nine routes of `module.exports`, in source order. -/
def routes : List Route :=
  [ routeOwner, routeItemsForOwner, routeItemsCount, routeItemsForType
  , routeItemsForTypeCount, routeItem, routeCreateItem, routePatchItem
  , routeDeleteItem ]

/-- Process one request against one route: run the `pre` chain, then (unless
it short-circuited) the handler. -/
def runRoute (route : Route) (req : Request) (db : DB) :
    Response × DB × List StoreOp :=
  match runPres route.pres req db.items ⟨none, none, none⟩ with
  | (Sum.inl ctx, ops) =>
    let (resp, db', ops') := runHandler route.handler req ctx db
    (resp, db', ops ++ ops')
  | (Sum.inr resp, ops) => (resp, db, ops)

/-!
## Generic lemmas on records and the store
-/

theorem getField_cons (p : Str × Attr) (r : Record) (f : Str) :
    getField (p :: r) f = if (p.1 == f) then some p.2 else getField r f := by
  by_cases h : (p.1 == f) = true
  · simp [getField, List.find?_cons_of_pos _ h, h]
  · simp [getField, List.find?_cons_of_neg _ h, h]

theorem getField_map_set_same (r : Record) (f : Str) (v : Attr)
    (hany : r.any (fun q => q.1 == f) = true) :
    getField (r.map (fun q => if q.1 == f then (f, v) else q)) f = some v := by
  induction r with
  | nil => simp at hany
  | cons p r' ih =>
    by_cases hp : (p.1 == f) = true
    · rw [List.map_cons, if_pos hp, getField_cons]
      simp
    · rw [List.map_cons, if_neg hp, getField_cons]
      simp only [hp, Bool.false_eq_true, if_false]
      simp only [List.any_cons, hp, Bool.false_or] at hany
      exact ih hany

theorem getField_setField_same (r : Record) (f : Str) (v : Attr) :
    getField (setField r f v) f = some v := by
  unfold setField
  by_cases hany : r.any (fun q => q.1 == f) = true
  · rw [if_pos hany]
    exact getField_map_set_same r f v hany
  · rw [if_neg hany]
    unfold getField
    rw [List.find?_append]
    have hnone : List.find? (fun p => p.1 == f) r = none := by
      rw [List.find?_eq_none]
      intro x hx hpx
      exact hany (List.any_eq_true.mpr ⟨x, hx, hpx⟩)
    rw [hnone]
    simp

theorem getField_map_set_other (r : Record) (f f' : Str) (v : Attr)
    (hff : (f == f') = false) :
    getField (r.map (fun q => if q.1 == f then (f, v) else q)) f' =
      getField r f' := by
  induction r with
  | nil => rfl
  | cons p r' ih =>
    by_cases hp : (p.1 == f) = true
    · have hpf : p.1 = f := by simpa using hp
      rw [List.map_cons, if_pos hp, getField_cons, getField_cons]
      have hpf' : (p.1 == f') = false := by rw [hpf]; exact hff
      simp only [hff, hpf', Bool.false_eq_true, if_false]
      exact ih
    · rw [List.map_cons, if_neg hp, getField_cons, getField_cons]
      by_cases hq : (p.1 == f') = true
      · simp [hq]
      · simp only [hq, Bool.false_eq_true, if_false]
        exact ih

theorem getField_setField_other (r : Record) (f f' : Str) (v : Attr)
    (h : f' ≠ f) : getField (setField r f v) f' = getField r f' := by
  have hff : (f == f') = false := by
    simp only [beq_eq_false_iff_ne, ne_eq]
    exact fun e => h e.symm
  unfold setField
  by_cases hany : r.any (fun q => q.1 == f) = true
  · rw [if_pos hany]
    exact getField_map_set_other r f f' v hff
  · rw [if_neg hany]
    unfold getField
    rw [List.find?_append]
    cases hcase : List.find? (fun p => p.1 == f') r with
    | some a => simp [hcase]
    | none => simp [hcase, hff]

theorem getField_setFields_not_mem (sets : Record) (r : Record) (f : Str)
    (h : ∀ p ∈ sets, p.1 ≠ f) :
    getField (setFields r sets) f = getField r f := by
  induction sets generalizing r with
  | nil => rfl
  | cons p rest ih =>
    show getField (setFields (setField r p.1 p.2) rest) f = getField r f
    rw [ih (setField r p.1 p.2) (fun q hq => h q (by simp [hq]))]
    exact getField_setField_other r p.1 f p.2
      (fun e => h p (by simp) e.symm)

theorem getField_setFields_mem (sets : Record) (r : Record) (f : Str)
    (v : Attr) (hmem : (f, v) ∈ sets) (hnodup : (sets.map Prod.fst).Nodup) :
    getField (setFields r sets) f = some v := by
  induction sets generalizing r with
  | nil => simp at hmem
  | cons p rest ih =>
    rcases List.mem_cons.mp hmem with heq | htail
    · subst heq
      show getField (setFields (setField r f v) rest) f = some v
      have hrest : ∀ q ∈ rest, q.1 ≠ f := by
        intro q hq he
        simp only [List.map_cons, List.nodup_cons] at hnodup
        exact hnodup.1 (he ▸ List.mem_map_of_mem Prod.fst hq)
      rw [getField_setFields_not_mem rest (setField r f v) f hrest]
      exact getField_setField_same r f v
    · show getField (setFields (setField r p.1 p.2) rest) f = some v
      simp only [List.map_cons, List.nodup_cons] at hnodup
      exact ih (setField r p.1 p.2) htail hnodup.2

theorem matchesKey_of_getField (r : Record) (o i : Str)
    (ho : getField r fOwnerID = some (.str o))
    (hi : getField r fId = some (.str i)) : matchesKey r o i = true := by
  unfold matchesKey
  rw [ho, hi]
  simp

theorem getItemStore_putItemStore (store : Store) (o i : Str) (item : Record)
    (h : matchesKey item o i = true) :
    getItemStore (putItemStore store o i item) o i = some item := by
  unfold getItemStore putItemStore
  rw [List.find?_append]
  have h1 : (store.filter fun r => !(matchesKey r o i)).find?
      (fun r => matchesKey r o i) = none := by
    rw [List.find?_eq_none]
    intro x hx
    have hx' := (List.mem_filter.mp hx).2
    simp only [Bool.not_eq_eq_eq_not, Bool.not_true] at hx'
    simp [hx']
  rw [h1]
  simp [h]

theorem getItemStore_map_update (store : Store) (o i : Str) (r r' : Record)
    (hfind : getItemStore store o i = some r)
    (hr' : matchesKey r' o i = true) :
    getItemStore (store.map (fun x => if matchesKey x o i then r' else x)) o i
      = some r' := by
  unfold getItemStore at *
  induction store with
  | nil => simp at hfind
  | cons x xs ih =>
    by_cases hx : matchesKey x o i = true
    · rw [List.map_cons, if_pos hx]
      exact List.find?_cons_of_pos _ hr'
    · rw [List.find?_cons_of_neg (p := fun r => matchesKey r o i) xs hx] at hfind
      rw [List.map_cons, if_neg hx,
        List.find?_cons_of_neg (p := fun r => matchesKey r o i) _ hx]
      exact ih hfind

theorem putItemStore_length_of_absent (store : Store) (o i : Str)
    (item : Record) (h : getItemStore store o i = none) :
    (putItemStore store o i item).length = store.length + 1 := by
  unfold putItemStore
  rw [List.length_append]
  have hkeep : store.filter (fun r => !(matchesKey r o i)) = store := by
    rw [List.filter_eq_self]
    intro a ha
    unfold getItemStore at h
    have := List.find?_eq_none.mp h a ha
    simpa using this
  rw [hkeep]
  rfl

theorem matchesKey_setField (r : Record) (f : Str) (v : Attr) (o i : Str)
    (h1 : fOwnerID ≠ f) (h2 : fId ≠ f) :
    matchesKey (setField r f v) o i = matchesKey r o i := by
  unfold matchesKey
  rw [getField_setField_other r f fOwnerID v h1,
    getField_setField_other r f fId v h2]

theorem matchesKey_setFields (r : Record) (sets : Record) (o i : Str)
    (h : ∀ p ∈ sets, p.1 ≠ fOwnerID ∧ p.1 ≠ fId) :
    matchesKey (setFields r sets) o i = matchesKey r o i := by
  unfold matchesKey
  rw [getField_setFields_not_mem sets r fOwnerID (fun p hp => (h p hp).1),
    getField_setFields_not_mem sets r fId (fun p hp => (h p hp).2)]

/-!
## Lemmas on the allocator and `createItem`
-/

theorem incrementIDForType_fst (type : Str) (cs : List (Str × Nat)) :
    (incrementIDForType type cs).1
      = ((cs.find? (fun p => p.1 == type)).map Prod.snd).getD 0 + 1 := rfl

theorem find?_set_assoc (cs : List (Str × Nat)) (k : Str) (v : Nat)
    (hany : cs.any (fun p => p.1 == k) = true) :
    (cs.map (fun p => if p.1 == k then (k, v) else p)).find?
        (fun p => p.1 == k) = some (k, v) := by
  induction cs with
  | nil => simp at hany
  | cons p rest ih =>
    by_cases hp : (p.1 == k) = true
    · rw [List.map_cons, if_pos hp]
      exact List.find?_cons_of_pos _ (by simp)
    · rw [List.map_cons, if_neg hp,
        List.find?_cons_of_neg (p := fun q : Str × Nat => q.1 == k) _
          (by simpa using hp)]
      simp only [List.any_cons, hp, Bool.false_or] at hany
      exact ih hany

theorem lookup_incrementIDForType (type : Str) (cs : List (Str × Nat)) :
    ((incrementIDForType type cs).2.find? (fun p => p.1 == type)).map Prod.snd
      = some ((incrementIDForType type cs).1) := by
  unfold incrementIDForType
  by_cases hany : cs.any (fun p => p.1 == type) = true
  · simp only [hany, if_true]
    rw [find?_set_assoc cs type _ hany]
    rfl
  · simp only [hany, Bool.false_eq_true, if_false]
    have hnone : cs.find? (fun p => p.1 == type) = none := by
      rw [List.find?_eq_none]
      intro x hx hpx
      exact hany (List.any_eq_true.mpr ⟨x, hx, hpx⟩)
    rw [List.find?_append, hnone]
    simp

theorem incrementIDForType_next (type : Str) (cs : List (Str × Nat)) :
    (incrementIDForType type (incrementIDForType type cs).2).1
      = (incrementIDForType type cs).1 + 1 := by
  rw [incrementIDForType_fst, lookup_incrementIDForType]
  rfl

theorem createItem_eq (owner : Owner) (type : Str) (tags name : Option Attr)
    (contentJSON : Attr) (db : DB) :
    createItem owner type tags name contentJSON db =
      (⟨type, (incrementIDForType type db.counters).1⟩,
       ⟨putItemStore db.items (uniqueIDForOwner owner)
          (uniqueIDForTypeAndID type
            (natToDecimal (incrementIDForType type db.counters).1))
          (createdRecord owner type tags name contentJSON
            (incrementIDForType type db.counters).1),
        (incrementIDForType type db.counters).2⟩,
       [StoreOp.updateItemOp, StoreOp.putItemOp]) := rfl

theorem getField_createdRecord_ownerID (owner : Owner) (type : Str)
    (tags name : Option Attr) (contentJSON : Attr) (c : Nat) :
    getField (createdRecord owner type tags name contentJSON c) fOwnerID
      = some (.str (uniqueIDForOwner owner)) := by
  simp +decide [createdRecord, getField_cons]

theorem getField_createdRecord_id (owner : Owner) (type : Str)
    (tags name : Option Attr) (contentJSON : Attr) (c : Nat) :
    getField (createdRecord owner type tags name contentJSON c) fId
      = some (.str (uniqueIDForTypeAndID type (natToDecimal c))) := by
  simp +decide [createdRecord, getField_cons]

theorem getField_createdRecord_contentJSON (owner : Owner) (type : Str)
    (tags name : Option Attr) (contentJSON : Attr) (c : Nat) :
    getField (createdRecord owner type tags name contentJSON c) fContentJSON
      = some (.serialized contentJSON) := by
  simp +decide [createdRecord, getField_cons, JSONstringify]

theorem getField_createdRecord_name (owner : Owner) (type : Str)
    (tags name : Option Attr) (contentJSON : Attr) (c : Nat) :
    getField (createdRecord owner type tags name contentJSON c) fName
      = some (name.getD (.str "Untitled".data)) := by
  simp +decide [createdRecord, getField_cons]

theorem getField_createdRecord_tags (owner : Owner) (type : Str)
    (tags name : Option Attr) (contentJSON : Attr) (c : Nat) :
    getField (createdRecord owner type tags name contentJSON c) fTags
      = some (tags.getD (.arr [])) := by
  simp +decide [createdRecord, getField_cons]

theorem matchesKey_createdRecord (owner : Owner) (type : Str)
    (tags name : Option Attr) (contentJSON : Attr) (c : Nat) :
    matchesKey (createdRecord owner type tags name contentJSON c)
        (uniqueIDForOwner owner)
        (uniqueIDForTypeAndID type (natToDecimal c)) = true :=
  matchesKey_of_getField _ _ _
    (getField_createdRecord_ownerID owner type tags name contentJSON c)
    (getField_createdRecord_id owner type tags name contentJSON c)

theorem formatItem_parses (r : Record) (v : Attr)
    (h : getField r fContentJSON = some (.serialized v)) :
    getField (formatItem r) fContentJSON = some v := by
  unfold formatItem
  rw [h]
  simp only [Attr.truthy, Attr.isString, JSONparse, if_true]
  exact getField_setField_same _ fContentJSON v

theorem formatItem_createdRecord_eq (owner : Owner) (type : Str)
    (tags name : Option Attr) (contentJSON : Attr) (c : Nat) :
    formatItem (createdRecord owner type tags name contentJSON c)
      = setField
          (setField (createdRecord owner type tags name contentJSON c) fId
            (.str (natToDecimal c)))
          fContentJSON contentJSON := by
  unfold formatItem
  rw [getField_createdRecord_id, getField_createdRecord_contentJSON]
  show setField
      (setField (createdRecord owner type tags name contentJSON c) fId
        (.str (formatID (uniqueIDForTypeAndID type (natToDecimal c)))))
      fContentJSON contentJSON = _
  rw [formatID_uniqueID type (natToDecimal c) (natToDecimal_no_dash c)]

theorem formatItem_createdRecord_id (owner : Owner) (type : Str)
    (tags name : Option Attr) (contentJSON : Attr) (c : Nat) :
    getField (formatItem (createdRecord owner type tags name contentJSON c))
        fId = some (.str (natToDecimal c)) := by
  rw [formatItem_createdRecord_eq,
    getField_setField_other _ fContentJSON fId contentJSON (by decide)]
  exact getField_setField_same _ fId _

theorem formatItem_createdRecord_contentJSON (owner : Owner) (type : Str)
    (tags name : Option Attr) (contentJSON : Attr) (c : Nat) :
    getField (formatItem (createdRecord owner type tags name contentJSON c))
        fContentJSON = some contentJSON := by
  rw [formatItem_createdRecord_eq]
  exact getField_setField_same _ fContentJSON _

/-!
## Concrete material shared by witnesses and counterexamples
-/

/-- The authorized owner of the spec's examples. -/
def owner0 : Owner := ⟨"organization".data, "1".data⟩

/-- A parsed JSON document (`{url: 'a.png'}`). -/
def cj0 : Attr := .obj [("url".data, .str "a.png".data)]

/-- A stored picture item of `owner0` whose `contentJSON` is persisted as a
serialized string, as `createItem` writes it. -/
def record0 : Record :=
  [ (fOwnerID, .str (uniqueIDForOwner owner0))
  , (fId, .str "picture-1".data)
  , (fType, .str "picture".data)
  , (fTags, .arr [])
  , (fName, .str "a".data)
  , (fContentJSON, .serialized cj0) ]

/-!
## The claims
-/

/-- C3: for every type string in the item-type enum and every id containing
no `-` separator character, parsing the composite key with `formatID` after
formatting it with `uniqueIDForTypeAndID` returns the original id. -/
theorem claim_key_roundtrip (type id : Str)
    (_htype : type ∈ itemTypeValues) (hid : ∀ c ∈ id, c ≠ '-') :
    formatID (uniqueIDForTypeAndID type id) = id :=
  formatID_uniqueID type id hid

/-- Witness for C3 at the mapped type `story-screen` (which itself contains
`-`) and the allocator-style id `7`. -/
theorem claim_key_roundtrip_witness :
    "story-screen".data ∈ itemTypeValues ∧
    formatID (uniqueIDForTypeAndID "story-screen".data "7".data)
      = "7".data :=
  ⟨by decide,
   claim_key_roundtrip "story-screen".data "7".data (by decide) (by decide)⟩

/-- C4: reading back, with `readItem`, the id returned by `createItem`
(under the same owner and type) yields a record whose `id` field is the
allocator's counter (as the bare decimal string `formatID` strips it to) and
whose `contentJSON` deep-equals the `contentJSON` passed to `createItem`. -/
theorem claim_create_then_read (owner : Owner) (type : Str)
    (tags name : Option Attr) (contentJSON : Attr) (db : DB) :
    (createItem owner type tags name contentJSON db).1.id
        = (incrementIDForType type db.counters).1 ∧
    ∃ r,
      (readItem owner type
          (natToDecimal (createItem owner type tags name contentJSON db).1.id)
          (createItem owner type tags name contentJSON db).2.1.items).1
        = some r ∧
      getField r fId
        = some (.str (natToDecimal
            (createItem owner type tags name contentJSON db).1.id)) ∧
      getField r fContentJSON = some contentJSON := by
  refine ⟨rfl,
    formatItem (createdRecord owner type tags name contentJSON
      ((incrementIDForType type db.counters).1)), ?_, ?_, ?_⟩
  · show ((getItemStore
        (putItemStore db.items (uniqueIDForOwner owner)
          (uniqueIDForTypeAndID type
            (natToDecimal (incrementIDForType type db.counters).1))
          (createdRecord owner type tags name contentJSON
            (incrementIDForType type db.counters).1))
        (uniqueIDForOwner owner)
        (uniqueIDForTypeAndID type
          (natToDecimal (incrementIDForType type db.counters).1))).map
        formatItem) = _
    rw [getItemStore_putItemStore _ _ _ _
      (matchesKey_createdRecord owner type tags name contentJSON _)]
    rfl
  · exact formatItem_createdRecord_id owner type tags name contentJSON _
  · exact formatItem_createdRecord_contentJSON owner type tags name
      contentJSON _

/-- C5: `createItem` allocates a fresh ID via `incrementIDForType` and only
then writes (the allocation's store update precedes the `putItem`); the
stored record carries the serialized `contentJSON`, `name` defaulting to
`'Untitled'` and `tags` defaulting to `[]`; the call returns `{type, id}`
with `id` the allocator's counter; on a fresh key exactly one record is
added; and a second call allocates the next id, so the operation is not
idempotent. -/
theorem claim_createItem_behavior (owner : Owner) (type : Str)
    (contentJSON : Attr) (db : DB) :
    (createItem owner type none none contentJSON db).1
        = ⟨type, (incrementIDForType type db.counters).1⟩ ∧
    (createItem owner type none none contentJSON db).2.2
        = [StoreOp.updateItemOp, StoreOp.putItemOp] ∧
    getItemStore (createItem owner type none none contentJSON db).2.1.items
        (uniqueIDForOwner owner)
        (uniqueIDForTypeAndID type
          (natToDecimal (incrementIDForType type db.counters).1))
      = some (createdRecord owner type none none contentJSON
          (incrementIDForType type db.counters).1) ∧
    getField (createdRecord owner type none none contentJSON
        (incrementIDForType type db.counters).1) fContentJSON
      = some (JSONstringify contentJSON) ∧
    getField (createdRecord owner type none none contentJSON
        (incrementIDForType type db.counters).1) fName
      = some (.str "Untitled".data) ∧
    getField (createdRecord owner type none none contentJSON
        (incrementIDForType type db.counters).1) fTags
      = some (.arr []) ∧
    (getItemStore db.items (uniqueIDForOwner owner)
        (uniqueIDForTypeAndID type
          (natToDecimal (incrementIDForType type db.counters).1)) = none →
      (createItem owner type none none contentJSON db).2.1.items.length
        = db.items.length + 1) ∧
    (createItem owner type none none contentJSON
        (createItem owner type none none contentJSON db).2.1).1.id
      = (createItem owner type none none contentJSON db).1.id + 1 := by
  refine ⟨rfl, rfl, ?_, ?_, ?_, ?_, ?_, ?_⟩
  · exact getItemStore_putItemStore _ _ _ _
      (matchesKey_createdRecord owner type none none contentJSON _)
  · exact getField_createdRecord_contentJSON owner type none none
      contentJSON _
  · exact getField_createdRecord_name owner type none none contentJSON _
  · exact getField_createdRecord_tags owner type none none contentJSON _
  · intro h
    exact putItemStore_length_of_absent db.items _ _ _ h
  · exact incrementIDForType_next type db.counters

/-- Witness for C5: creating the first picture in an empty database adds
exactly one record. -/
theorem claim_createItem_behavior_witness :
    (createItem owner0 "picture".data none none cj0 ⟨[], []⟩).2.1.items.length
      = ([] : Store).length + 1 :=
  (claim_createItem_behavior owner0 "picture".data cj0
      ⟨[], []⟩).2.2.2.2.2.2.1 rfl

theorem updateItemStore_found (store : Store) (o i : Str) (sets r : Record)
    (h : getItemStore store o i = some r) :
    updateItemStore store o i sets
      = (setFields r sets,
         store.map (fun x => if matchesKey x o i then setFields r sets
           else x)) := by
  unfold updateItemStore
  rw [h]

theorem updateItemStore_absent (store : Store) (o i : Str) (sets : Record)
    (h : getItemStore store o i = none) :
    updateItemStore store o i sets
      = (setFields [(fOwnerID, .str o), (fId, .str i)] sets,
         store ++ [setFields [(fOwnerID, .str o), (fId, .str i)] sets]) := by
  unfold updateItemStore
  rw [h]

theorem updateNameForItem_eq (owner : Owner) (type id : Str) (newName : Attr)
    (store : Store) :
    updateNameForItem owner type id newName store
      = ((updateItemStore store (uniqueIDForOwner owner)
            (uniqueIDForTypeAndID type id) [(fName, newName)]).1,
         (updateItemStore store (uniqueIDForOwner owner)
            (uniqueIDForTypeAndID type id) [(fName, newName)]).2,
         [StoreOp.updateItemOp]) := rfl

theorem updateTagsForItem_eq (owner : Owner) (type id : Str) (newTags : Attr)
    (store : Store) :
    updateTagsForItem owner type id newTags store
      = ((updateItemStore store (uniqueIDForOwner owner)
            (uniqueIDForTypeAndID type id) [(fTags, newTags)]).1,
         (updateItemStore store (uniqueIDForOwner owner)
            (uniqueIDForTypeAndID type id) [(fTags, newTags)]).2,
         [StoreOp.updateItemOp]) := rfl

theorem updateItemWithChanges_eq (owner : Owner) (type id : Str)
    (changes : Record) (store : Store) :
    updateItemWithChanges owner type id changes store
      = ((updateItemStore store (uniqueIDForOwner owner)
            (uniqueIDForTypeAndID type id) changes).1,
         (updateItemStore store (uniqueIDForOwner owner)
            (uniqueIDForTypeAndID type id) changes).2,
         [StoreOp.updateItemOp]) := rfl

theorem setFields_singleton_frame (r : Record) (f : Str) (v : Attr)
    (f' : Str) (h : f' ≠ f) :
    getField (setFields r [(f, v)]) f' = getField r f' := by
  apply getField_setFields_not_mem
  intro p hp
  rw [List.mem_singleton] at hp
  subst hp
  exact fun e => h e.symm

/-- C6: `updateItemWithChanges` with a changeset touching only `name` leaves
the `tags` and `contentJSON` fields of the returned record unchanged from
the stored record, and the stored record equals the returned one. -/
theorem claim_update_name_frame (owner : Owner) (type id : Str) (x : Attr)
    (store : Store) (r : Record)
    (h : getItemStore store (uniqueIDForOwner owner)
        (uniqueIDForTypeAndID type id) = some r) :
    getField (updateItemWithChanges owner type id [(fName, x)] store).1 fTags
        = getField r fTags ∧
    getField (updateItemWithChanges owner type id [(fName, x)] store).1
        fContentJSON = getField r fContentJSON ∧
    getItemStore (updateItemWithChanges owner type id [(fName, x)] store).2.1
        (uniqueIDForOwner owner) (uniqueIDForTypeAndID type id)
      = some (updateItemWithChanges owner type id [(fName, x)] store).1 := by
  have h' : List.find? (fun q => matchesKey q (uniqueIDForOwner owner)
      (uniqueIDForTypeAndID type id)) store = some r := h
  have hkeys : ∀ p ∈ [(fName, x)], p.1 ≠ fOwnerID ∧ p.1 ≠ fId := by
    intro p hp
    rw [List.mem_singleton] at hp
    subst hp
    refine ⟨?_, ?_⟩
    · show fName ≠ fOwnerID
      decide
    · show fName ≠ fId
      decide
  have hmk : matchesKey (setFields r [(fName, x)]) (uniqueIDForOwner owner)
      (uniqueIDForTypeAndID type id) = true := by
    rw [matchesKey_setFields r [(fName, x)] _ _ hkeys]
    exact List.find?_some (p := fun q => matchesKey q (uniqueIDForOwner owner)
      (uniqueIDForTypeAndID type id)) h'
  simp only [updateItemWithChanges_eq, updateItemStore_found store _ _ _ r h]
  exact ⟨setFields_singleton_frame r fName x fTags (by decide),
    setFields_singleton_frame r fName x fContentJSON (by decide),
    getItemStore_map_update store _ _ r _ h hmk⟩

/-- Witness for C6: a name-only change on the stored picture keeps the tags
field. -/
theorem claim_update_name_frame_witness :
    getField (updateItemWithChanges owner0 "picture".data "1".data
        [(fName, .str "X".data)] [record0]).1 fTags
      = getField record0 fTags :=
  (claim_update_name_frame owner0 "picture".data "1".data (.str "X".data)
      [record0] record0 rfl).1

/-- C7: reading a non-existent `(owner, type, id)` returns `none` rather
than an error, and the GET single-item route turns that absence into the
404 `Boom.notFound` response. -/
theorem claim_read_absent_notfound (ownerType ownerID type id : Str)
    (db : DB)
    (h : getItemStore db.items (uniqueIDForOwner ⟨ownerType, ownerID⟩)
        (uniqueIDForTypeAndID type id) = none) :
    (readItem ⟨ownerType, ownerID⟩ type id db.items).1 = none ∧
    (runRoute routeItem ⟨ownerType, ownerID, type, id, []⟩ db).1
      = Response.notFound (notFoundMessage type id) := by
  have h1 : (readItem ⟨ownerType, ownerID⟩ type id db.items).1 = none := by
    unfold readItem
    rw [h]
    rfl
  refine ⟨h1, ?_⟩
  simp only [runRoute, routeItem, runPres, runPre, runHandler, Option.getD]
  rw [h1]

/-- Witness for C7 on an empty database. -/
theorem claim_read_absent_notfound_witness :
    (readItem ⟨"user".data, "5".data⟩ "picture".data "9".data []).1 = none ∧
    (runRoute routeItem
        ⟨"user".data, "5".data, "picture".data, "9".data, []⟩ ⟨[], []⟩).1
      = Response.notFound (notFoundMessage "picture".data "9".data) :=
  claim_read_absent_notfound "user".data "5".data "picture".data "9".data
    ⟨[], []⟩ rfl

/-- C9: the three update operations resolve with the store's raw `ALL_NEW`
attributes, with `formatItem` not applied: the returned `id` is still the
composite `type-id` string, and a `contentJSON` persisted as a serialized
string comes back as that string (not parsed). -/
theorem claim_update_returns_raw (owner : Owner) (type id : Str)
    (store : Store) (r : Record) (v newName newTags : Attr)
    (changes : Record)
    (h : getItemStore store (uniqueIDForOwner owner)
        (uniqueIDForTypeAndID type id) = some r)
    (hid : getField r fId = some (.str (uniqueIDForTypeAndID type id)))
    (hcj : getField r fContentJSON = some (.serialized v))
    (hch : ∀ p ∈ changes, p.1 ≠ fId ∧ p.1 ≠ fContentJSON) :
    ((updateNameForItem owner type id newName store).1
        = setFields r [(fName, newName)] ∧
     getField (updateNameForItem owner type id newName store).1 fId
        = some (.str (uniqueIDForTypeAndID type id)) ∧
     getField (updateNameForItem owner type id newName store).1 fContentJSON
        = some (.serialized v)) ∧
    ((updateTagsForItem owner type id newTags store).1
        = setFields r [(fTags, newTags)] ∧
     getField (updateTagsForItem owner type id newTags store).1 fId
        = some (.str (uniqueIDForTypeAndID type id)) ∧
     getField (updateTagsForItem owner type id newTags store).1 fContentJSON
        = some (.serialized v)) ∧
    ((updateItemWithChanges owner type id changes store).1
        = setFields r changes ∧
     getField (updateItemWithChanges owner type id changes store).1 fId
        = some (.str (uniqueIDForTypeAndID type id)) ∧
     getField (updateItemWithChanges owner type id changes store).1
        fContentJSON = some (.serialized v)) ∧
    Attr.isString (.serialized v) = true := by
  refine ⟨⟨?_, ?_, ?_⟩, ⟨?_, ?_, ?_⟩, ⟨?_, ?_, ?_⟩, rfl⟩
  · simp only [updateNameForItem_eq,
      updateItemStore_found store _ _ [(fName, newName)] r h]
  · simp only [updateNameForItem_eq,
      updateItemStore_found store _ _ [(fName, newName)] r h]
    rw [setFields_singleton_frame r fName newName fId (by decide)]
    exact hid
  · simp only [updateNameForItem_eq,
      updateItemStore_found store _ _ [(fName, newName)] r h]
    rw [setFields_singleton_frame r fName newName fContentJSON (by decide)]
    exact hcj
  · simp only [updateTagsForItem_eq,
      updateItemStore_found store _ _ [(fTags, newTags)] r h]
  · simp only [updateTagsForItem_eq,
      updateItemStore_found store _ _ [(fTags, newTags)] r h]
    rw [setFields_singleton_frame r fTags newTags fId (by decide)]
    exact hid
  · simp only [updateTagsForItem_eq,
      updateItemStore_found store _ _ [(fTags, newTags)] r h]
    rw [setFields_singleton_frame r fTags newTags fContentJSON (by decide)]
    exact hcj
  · simp only [updateItemWithChanges_eq,
      updateItemStore_found store _ _ changes r h]
  · simp only [updateItemWithChanges_eq,
      updateItemStore_found store _ _ changes r h]
    rw [getField_setFields_not_mem changes r fId (fun p hp => (hch p hp).1)]
    exact hid
  · simp only [updateItemWithChanges_eq,
      updateItemStore_found store _ _ changes r h]
    rw [getField_setFields_not_mem changes r fContentJSON
      (fun p hp => (hch p hp).2)]
    exact hcj

/-- Witness for C9: updating the stored picture's tags returns the composite
id `picture-1`, not the bare `1`. -/
theorem claim_update_returns_raw_witness :
    getField (updateTagsForItem owner0 "picture".data "1".data
        (.arr [.str "x".data]) [record0]).1 fId
      = some (.str (uniqueIDForTypeAndID "picture".data "1".data)) :=
  ((claim_update_returns_raw owner0 "picture".data "1".data [record0]
      record0 cj0 (.str "b".data) (.arr [.str "x".data])
      [("previewDestination".data, .obj [])] rfl rfl rfl
      (by decide)).2.1).2.1

/-- C10: the update operations attach no condition expression, so on an
absent key they do not fail: the store's upsert creates (and the call
returns) a record holding only the key fields and the updated fields. -/
theorem claim_update_upsert (owner : Owner) (type id : Str)
    (newName newTags : Attr) (changes : Record) (store : Store)
    (h : getItemStore store (uniqueIDForOwner owner)
        (uniqueIDForTypeAndID type id) = none) :
    ((updateNameForItem owner type id newName store).1
        = [ (fOwnerID, .str (uniqueIDForOwner owner))
          , (fId, .str (uniqueIDForTypeAndID type id))
          , (fName, newName) ] ∧
     (updateNameForItem owner type id newName store).2.1
        = store ++ [[ (fOwnerID, .str (uniqueIDForOwner owner))
                    , (fId, .str (uniqueIDForTypeAndID type id))
                    , (fName, newName) ]]) ∧
    ((updateTagsForItem owner type id newTags store).1
        = [ (fOwnerID, .str (uniqueIDForOwner owner))
          , (fId, .str (uniqueIDForTypeAndID type id))
          , (fTags, newTags) ] ∧
     (updateTagsForItem owner type id newTags store).2.1
        = store ++ [[ (fOwnerID, .str (uniqueIDForOwner owner))
                    , (fId, .str (uniqueIDForTypeAndID type id))
                    , (fTags, newTags) ]]) ∧
    ((updateItemWithChanges owner type id changes store).1
        = setFields [ (fOwnerID, .str (uniqueIDForOwner owner))
                    , (fId, .str (uniqueIDForTypeAndID type id)) ] changes ∧
     (updateItemWithChanges owner type id changes store).2.1
        = store ++ [setFields
            [ (fOwnerID, .str (uniqueIDForOwner owner))
            , (fId, .str (uniqueIDForTypeAndID type id)) ] changes]) := by
  refine ⟨⟨?_, ?_⟩, ⟨?_, ?_⟩, ⟨?_, ?_⟩⟩ <;>
    simp only [updateNameForItem_eq, updateTagsForItem_eq,
      updateItemWithChanges_eq, updateItemStore_absent store _ _ _ h] <;>
    rfl

/-- Witness for C10: a name update against an empty store succeeds and
creates the two key fields plus `name`. -/
theorem claim_update_upsert_witness :
    (updateNameForItem owner0 "picture".data "9".data (.str "b".data) []).1
      = [ (fOwnerID, .str (uniqueIDForOwner owner0))
        , (fId, .str (uniqueIDForTypeAndID "picture".data "9".data))
        , (fName, .str "b".data) ] :=
  (claim_update_upsert owner0 "picture".data "9".data (.str "b".data)
      (.arr []) [] [] rfl).1.1

/-- C1 counterexample: `updateNameForItem` on a stored item whose
`contentJSON` is the persisted serialized string returns that serialized
string, not the parsed JSON value. -/
theorem claim_contentJSON_parsed_cex :
    getField (updateNameForItem owner0 "picture".data "1".data
        (.str "b".data) [record0]).1 fContentJSON
      = some (.serialized cj0) ∧
    Attr.isString (.serialized cj0) = true ∧
    Attr.serialized cj0 ≠ cj0 := by
  refine ⟨rfl, rfl, ?_⟩
  simp [cj0]

/-- C1 amended: the read operations (`readItem`, `readAllItemsForOwner`,
`readAllItemsForType`) pass every returned record through `formatItem`,
which replaces a `contentJSON` persisted as a serialized string by the
parsed JSON value. -/
theorem claim_contentJSON_parsed_reads :
    (∀ (r : Record) (v : Attr),
        getField r fContentJSON = some (.serialized v) →
        getField (formatItem r) fContentJSON = some v) ∧
    (∀ (owner : Owner) (type id : Str) (store : Store) (r : Record),
        (readItem owner type id store).1 = some r →
        ∃ r0, getItemStore store (uniqueIDForOwner owner)
            (uniqueIDForTypeAndID type id) = some r0 ∧ r = formatItem r0) ∧
    (∀ (owner : Owner) (store : Store) (r : Record),
        r ∈ (readAllItemsForOwner owner store).1 →
        ∃ r0 ∈ store, r = formatItem r0) ∧
    (∀ (owner : Owner) (type : Str) (store : Store) (r : Record),
        r ∈ (readAllItemsForType owner type store).1 →
        ∃ r0 ∈ store, r = formatItem r0) := by
  refine ⟨formatItem_parses, ?_, ?_, ?_⟩
  · intro owner type id store r hr
    unfold readItem at hr
    rcases Option.map_eq_some'.mp hr with ⟨r0, h0, hf⟩
    exact ⟨r0, h0, hf.symm⟩
  · intro owner store r hr
    unfold readAllItemsForOwner at hr
    rcases List.mem_map.mp hr with ⟨r0, hr0, hf⟩
    exact ⟨r0, (List.mem_filter.mp hr0).1, hf.symm⟩
  · intro owner type store r hr
    unfold readAllItemsForType at hr
    rcases List.mem_map.mp hr with ⟨r0, hr0, hf⟩
    exact ⟨r0, (List.mem_filter.mp hr0).1, hf.symm⟩

/-- Witness for the amended C1: `formatItem` on the stored picture record
yields the parsed document. -/
theorem claim_contentJSON_parsed_reads_witness :
    getField (formatItem record0) fContentJSON = some cj0 :=
  claim_contentJSON_parsed_reads.1 record0 cj0 rfl

/-- C2 counterexample: on the declared `GET …/items` route, a request by
the organization owner with id `2` is served normally — the response is not
a 403-class one, and the store query is invoked. -/
theorem claim_auth_precondition_cex :
    (runRoute routeItemsForOwner
        ⟨"organization".data, "2".data, [], [], []⟩ ⟨[], []⟩).1.isUnauthorized
      = false ∧
    (runRoute routeItemsForOwner
        ⟨"organization".data, "2".data, [], [], []⟩ ⟨[], []⟩).2.2
      = [StoreOp.queryOp] :=
  ⟨rfl, rfl⟩

/-- C2 amended: `handlers.authorizedForOwner` does reply the 403-class
`Boom.unauthorized` for an organization owner whose id is not `'1'` (and as
a precondition step it would short-circuit with no store call), but no
declared route includes it in its `pre` chain, so no route performs this
check. -/
theorem claim_auth_precondition_amended :
    (∀ route ∈ routes, PreStep.preAuthorizedForOwner ∉ route.pres) ∧
    (∀ owner : Owner, owner.type = "organization".data →
      owner.id ≠ "1".data →
      authorizedForOwner owner = some (.unauthorized
        ("Not allowed to access organization ".data ++ owner.id)) ∧
      ∀ (req : Request) (store : Store) (t : Option Str) (c : Option Nat),
        runPre .preAuthorizedForOwner req store ⟨some owner, t, c⟩
          = (Sum.inr (.unauthorized
              ("Not allowed to access organization ".data ++ owner.id)),
             [])) := by
  constructor
  · decide
  · intro owner h1 h2
    have hb : (owner.type == "organization".data
        && !(owner.id == "1".data)) = true := by
      simp [h1, h2]
    have ha : authorizedForOwner owner = some (.unauthorized
        ("Not allowed to access organization ".data ++ owner.id)) := by
      unfold authorizedForOwner
      rw [if_pos hb]
    refine ⟨ha, ?_⟩
    intro req store t c
    simp [runPre, Option.getD, ha]

/-- Witness for the amended C2: the `GET …/items` route has no
authorization precondition, while `authorizedForOwner` itself rejects
organization `2`. -/
theorem claim_auth_precondition_amended_witness :
    PreStep.preAuthorizedForOwner ∉ routeItemsForOwner.pres ∧
    authorizedForOwner ⟨"organization".data, "2".data⟩
      = some (.unauthorized
          ("Not allowed to access organization ".data ++ "2".data)) :=
  ⟨claim_auth_precondition_amended.1 routeItemsForOwner (by decide),
   (claim_auth_precondition_amended.2 ⟨"organization".data, "2".data⟩ rfl
      (by decide)).1⟩

/-- C8: the PATCH route passes the entire validated payload as the
changeset to `updateItemWithChanges`, so every payload field present is
written to the returned and stored record; in particular a `contentJSON`
supplied via PATCH is stored as the parsed object (not a JSON-encoded
string). -/
theorem claim_patch_changeset (ownerType ownerID type id : Str)
    (payload : Record) (db : DB)
    (hnodup : (payload.map Prod.fst).Nodup)
    (hkeys : ∀ p ∈ payload, p.1 ≠ fOwnerID ∧ p.1 ≠ fId) :
    (runRoute routePatchItem ⟨ownerType, ownerID, type, id, payload⟩ db).1
        = Response.ok (.obj (updateItemWithChanges ⟨ownerType, ownerID⟩
            type id payload db.items).1) ∧
    (runRoute routePatchItem
        ⟨ownerType, ownerID, type, id, payload⟩ db).2.1.items
      = (updateItemWithChanges ⟨ownerType, ownerID⟩ type id payload
          db.items).2.1 ∧
    (∀ (f : Str) (v : Attr), (f, v) ∈ payload →
      getField (updateItemWithChanges ⟨ownerType, ownerID⟩ type id payload
          db.items).1 f = some v) ∧
    getItemStore (updateItemWithChanges ⟨ownerType, ownerID⟩ type id payload
        db.items).2.1
        (uniqueIDForOwner ⟨ownerType, ownerID⟩)
        (uniqueIDForTypeAndID type id)
      = some (updateItemWithChanges ⟨ownerType, ownerID⟩ type id payload
          db.items).1 ∧
    (∀ l, (fContentJSON, Attr.obj l) ∈ payload →
      getField (updateItemWithChanges ⟨ownerType, ownerID⟩ type id payload
          db.items).1 fContentJSON = some (.obj l) ∧
      Attr.isString (.obj l) = false) := by
  have hfields : ∀ (f : Str) (v : Attr), (f, v) ∈ payload →
      getField (updateItemWithChanges ⟨ownerType, ownerID⟩ type id payload
        db.items).1 f = some v := by
    intro f v hfv
    cases hfound : getItemStore db.items
        (uniqueIDForOwner ⟨ownerType, ownerID⟩)
        (uniqueIDForTypeAndID type id) with
    | some r =>
      simp only [updateItemWithChanges_eq,
        updateItemStore_found db.items _ _ payload r hfound]
      exact getField_setFields_mem payload r f v hfv hnodup
    | none =>
      simp only [updateItemWithChanges_eq,
        updateItemStore_absent db.items _ _ payload hfound]
      exact getField_setFields_mem payload _ f v hfv hnodup
  refine ⟨rfl, rfl, hfields, ?_, ?_⟩
  · cases hfound : getItemStore db.items
        (uniqueIDForOwner ⟨ownerType, ownerID⟩)
        (uniqueIDForTypeAndID type id) with
    | some r =>
      have hfind : List.find? (fun q => matchesKey q
          (uniqueIDForOwner ⟨ownerType, ownerID⟩)
          (uniqueIDForTypeAndID type id)) db.items = some r := hfound
      simp only [updateItemWithChanges_eq,
        updateItemStore_found db.items _ _ payload r hfound]
      apply getItemStore_map_update db.items _ _ r _ hfound
      rw [matchesKey_setFields r payload _ _ hkeys]
      exact List.find?_some (p := fun q => matchesKey q
        (uniqueIDForOwner ⟨ownerType, ownerID⟩)
        (uniqueIDForTypeAndID type id)) hfind
    | none =>
      simp only [updateItemWithChanges_eq,
        updateItemStore_absent db.items _ _ payload hfound]
      have hnone : List.find? (fun q => matchesKey q
          (uniqueIDForOwner ⟨ownerType, ownerID⟩)
          (uniqueIDForTypeAndID type id)) db.items = none := hfound
      have hr' : matchesKey (setFields
          [ (fOwnerID, .str (uniqueIDForOwner ⟨ownerType, ownerID⟩))
          , (fId, .str (uniqueIDForTypeAndID type id)) ] payload)
          (uniqueIDForOwner ⟨ownerType, ownerID⟩)
          (uniqueIDForTypeAndID type id) = true := by
        rw [matchesKey_setFields _ payload _ _ hkeys]
        apply matchesKey_of_getField
        · rfl
        · rfl
      unfold getItemStore
      rw [List.find?_append, hnone, Option.none_or,
        List.find?_cons_of_pos (p := fun q => matchesKey q
          (uniqueIDForOwner ⟨ownerType, ownerID⟩)
          (uniqueIDForTypeAndID type id)) _ hr']
  · intro l hl
    exact ⟨hfields fContentJSON (.obj l) hl, rfl⟩

/-- Witness for C8: a PATCH payload carrying `version`, `contentJSON`,
`rawTags` and `previewDestination` writes them all; the stored
`contentJSON` is the object itself. -/
theorem claim_patch_changeset_witness :
    getField (updateItemWithChanges ⟨"organization".data, "1".data⟩
        "picture".data "1".data
        [ ("version".data, .num 1)
        , (fContentJSON, .obj [("a".data, .num 2)])
        , ("rawTags".data, .str "x,y".data)
        , ("previewDestination".data,
            .obj [("device".data, .str "phone".data)]) ]
        []).1 fContentJSON
      = some (.obj [("a".data, .num 2)]) :=
  ((claim_patch_changeset "organization".data "1".data "picture".data
      "1".data
      [ ("version".data, .num 1)
      , (fContentJSON, .obj [("a".data, .num 2)])
      , ("rawTags".data, .str "x,y".data)
      , ("previewDestination".data,
          .obj [("device".data, .str "phone".data)]) ]
      ⟨[], []⟩ (by decide) (by decide)).2.2.2.2
      [("a".data, .num 2)] (by simp)).1

end Collected
